import Mathlib

/-!
Verification of the literature-metadata aggregation engine of the
psychology-telegram-bot repository.

The Python modules `bot/services/_common.py` and `bot/services/literature.py`
are shallowly embedded below: strings are Lean `String`s manipulated through
their character lists, the regular expressions of `_common.py` are unfolded
into the deterministic character scans they denote, coroutine results are
`Except` values (a raised exception is `Except.error`), and the provider
clients of `bot/services/__init__.py` are records of optional callables
(an absent callable models a missing duck-typed attribute, whose access
raises `AttributeError`).
-/

namespace PsyBot

/-- Characters treated as whitespace by Python's `str.strip()` and by the
regex class `\s` (ASCII range, which is all the repository ever feeds in). -/
def isPySpace (c : Char) : Bool :=
  c == ' ' || c == '\t' || c == '\n' || c == '\r' || c == '\x0B' || c == '\x0C'

/-- Python `s.strip()`: drop leading and trailing whitespace. -/
def pyStrip (s : String) : String :=
  ⟨((s.data.dropWhile isPySpace).reverse.dropWhile isPySpace).reverse⟩

/-- Python `s.rstrip(").,;")` as used for trailing sentence punctuation. -/
def isTrailPunct (c : Char) : Bool :=
  c == ')' || c == '.' || c == ',' || c == ';'

/-- Python `s.rstrip(").,;")`. -/
def rstripPunct (s : String) : String :=
  ⟨(s.data.reverse.dropWhile isTrailPunct).reverse⟩

/-- Case-insensitive literal match: drop the literal `pre` (given in lower
case) from the front of `cs`, comparing case-insensitively; `none` when the
literal is not a leading occurrence. -/
def dropLitCI : List Char → List Char → Option (List Char)
  | [], cs => some cs
  | _ :: _, [] => none
  | p :: ps, c :: cs => if c.toLower == p then dropLitCI ps cs else none

/-- `re.sub(r"^\s*(doi\s*:\s*)", "", s, flags=IGNORECASE)`: remove one
leading `doi:` label (with surrounding whitespace) when present. -/
def stripDoiLabel (cs : List Char) : List Char :=
  match (cs.dropWhile isPySpace : List Char) with
  | c1 :: c2 :: c3 :: r =>
    if c1.toLower == 'd' && c2.toLower == 'o' && c3.toLower == 'i' then
      match (r.dropWhile isPySpace : List Char) with
      | ':' :: r3 => r3.dropWhile isPySpace
      | _ => cs
    else cs
  | _ => cs

/-- `re.sub(r"^https?://(dx\.)?doi\.org/", "", s, flags=IGNORECASE)`: remove
one leading doi.org URL scheme when present.  The four alternatives of the
regex are disjoint literals, so trying them in order is faithful. -/
def stripDoiUrl (cs : List Char) : List Char :=
  match dropLitCI "https://dx.doi.org/".data cs with
  | some r => r
  | none =>
    match dropLitCI "https://doi.org/".data cs with
    | some r => r
    | none =>
      match dropLitCI "http://dx.doi.org/".data cs with
      | some r => r
      | none =>
        match dropLitCI "http://doi.org/".data cs with
        | some r => r
        | none => cs

/-- `normalize_doi` of `_common.py`: strip, remove a leading `doi:` label,
remove a leading doi.org URL, strip again. -/
def normalize_doi (raw : String) : String :=
  pyStrip ⟨stripDoiUrl (stripDoiLabel (pyStrip raw).data)⟩

/-- The anchored skeleton of `DOI_RE = 10\.[0-9]{4,9}/\S+`: when `cs` starts
with `10.`, then 4–9 digits, then `/`, return what follows the slash.
Backtracking never helps the quantifier `[0-9]{4,9}` here because the
character after a shorter digit choice is itself a digit, never `/`, so the
digit run is exactly the maximal one. -/
def doiStem (cs : List Char) : Option (List Char) :=
  match cs with
  | '1' :: '0' :: '.' :: rest =>
    if 4 ≤ (rest.takeWhile Char.isDigit).length ∧
        (rest.takeWhile Char.isDigit).length ≤ 9 then
      match (rest.dropWhile Char.isDigit : List Char) with
      | '/' :: tail => some tail
      | _ => none
    else none
  | _ => none

/-- `DOI_RE.fullmatch(s)`: the whole string is `10.[0-9]{4,9}/\S+`. -/
def doiFull (s : String) : Bool :=
  match doiStem s.data with
  | some tail => !tail.isEmpty && tail.all (fun c => !isPySpace c)
  | none => false

/-- `DOI_RE.match(s)`: the pattern matches at the start of the string;
`\S+` only needs one non-whitespace character right after the slash. -/
def doiStart (s : String) : Bool :=
  match doiStem s.data with
  | some (c :: _) => !isPySpace c
  | _ => false

/-- `looks_like_doi` of `_common.py`: normalize, strip trailing `).,;`,
then `DOI_RE.fullmatch(s) or DOI_RE.match(s)`. -/
def looks_like_doi (raw : String) : Bool :=
  let s := rstripPunct (normalize_doi raw)
  doiFull s || doiStart s

example : looks_like_doi "10.1037/0003-066X.59.1.9" = true := by decide
example : looks_like_doi "https://doi.org/10.1037/a0029146)." = true := by decide
example : rstripPunct (normalize_doi "https://doi.org/10.1037/a0029146).") = "10.1037/a0029146" := by decide
example : looks_like_doi "cognitive bias" = false := by decide
example : looks_like_doi "10.1234/abc def" = true := by decide
example : doiFull (rstripPunct (normalize_doi "10.1234/abc def")) = false := by decide
example : normalize_doi "doi: doi:10.1/x" = "doi:10.1/x" := by decide
example : normalize_doi "doi:10.1/x" = "10.1/x" := by decide

/-- `dropWhile` never lengthens a list. -/
theorem dropWhile_length_le {α : Type} (p : α → Bool) (l : List α) :
    (l.dropWhile p).length ≤ l.length := by
  induction l with
  | nil => simp
  | cons a l ih =>
    by_cases h : p a
    · simpa [List.dropWhile_cons_of_pos h] using Nat.le_succ_of_le ih
    · simp [List.dropWhile_cons_of_neg h]

/-- `re.sub(r"\s+", " ", s)`, scanned left to right: `afterSpace` records
whether the previous character belonged to a whitespace run, so each maximal
run contributes exactly one space. -/
def collapseWsAux (afterSpace : Bool) : List Char → List Char
  | [] => []
  | c :: cs =>
    if isPySpace c then
      if afterSpace then collapseWsAux true cs
      else ' ' :: collapseWsAux true cs
    else c :: collapseWsAux false cs

/-- `re.sub(r"\s+", " ", s)`: collapse every maximal whitespace run to one
space. -/
def collapseWs (l : List Char) : List Char := collapseWsAux false l

/-- Canonical record `Paper` of `_common.py`.  Optional Python strings are
`Option String`; Python `None` is `none` and an empty string is `some ""`
(they are distinguished because Python truthiness treats both as false). -/
structure Paper where
  title : String
  year : Option Int := none
  doi : Option String := none
  url : Option String := none
  authors : String := ""
  source : String := ""
  cited_by : Option Int := none
deriving DecidableEq, Repr

/-- Python truthiness of an optional string (`if self.doi:`). -/
def strTruthy : Option String → Bool
  | none => false
  | some s => s ≠ ""

/-- `Paper.key` of `_common.py`: `doi:` plus the lowercased identifier when
the `doi` field is truthy, else `title:` plus the first 200 characters of
the stripped, lowercased, whitespace-collapsed title. -/
def Paper.key (p : Paper) : String :=
  if strTruthy p.doi then "doi:" ++ (p.doi.getD "").toLower
  else "title:" ++ ⟨(collapseWs ((pyStrip p.title).toLower).data).take 200⟩

/-- A provider client as the orchestrator sees it through duck typing: each
slot is the callable bound to that attribute name, or `none` when the class
defines no such attribute (so that accessing it raises `AttributeError`).
A call returns `Except.error` when the coroutine raises; a successful
`search_title` yields a list whose entries are `some` a `Paper` or `none`
for a non-`Paper` element; a successful `lookup_doi` yields `some` a
`Paper` or `none` for `None`/non-`Paper`. -/
structure Client where
  search_title : Option (String → Int → Except String (List (Option Paper)))
  lookup_doi : Option (String → Except String (Option Paper))

/-- `Provider` of `literature.py`. -/
structure Provider where
  name : String
  supports_title : Bool
  supports_doi : Bool
  client : Client

/-- The guarded attribute access plus call
`await prov.client.search_title(q, rows=rows)` inside the `try` block. -/
def callSearchTitle (c : Client) (q : String) (rows : Int) :
    Except String (List (Option Paper)) :=
  match c.search_title with
  | none => .error "AttributeError: search_title"
  | some f => f q rows

/-- The guarded attribute access plus call
`await prov.client.lookup_doi(d)` inside the `try` block. -/
def callLookupDoi (c : Client) (d : String) : Except String (Option Paper) :=
  match c.lookup_doi with
  | none => .error "AttributeError: lookup_doi"
  | some f => f d

/-- `LiteratureService` of `literature.py` (its construction only stores the
provider list; the two orders are derived views). -/
structure LiteratureService where
  providers : List Provider

/-- `self._doi_order`: the providers with `supports_doi`, in list order. -/
def LiteratureService.doi_order (s : LiteratureService) : List Provider :=
  s.providers.filter (·.supports_doi)

/-- `self._title_order`: the providers with `supports_title`, in order. -/
def LiteratureService.title_order (s : LiteratureService) : List Provider :=
  s.providers.filter (·.supports_title)

/-- Message of the `LiteratureError` raised by `search_title`. -/
def titleErrMsg : String :=
  "Не удалось получить результаты (все источники вернули ошибки)."

/-- Message of the `LiteratureError` raised by `lookup_doi`. -/
def doiErrMsg : String :=
  "Не удалось получить метаданные по DOI (источники вернули ошибки)."

/-- The inner `for it in items or []` loop of `search_title`: skip
non-`Paper` elements and already-seen keys, append fresh records, and stop
with `true` as soon as `len(out) >= int(rows)` after an append. -/
def addItems (rows : Int) : List (Option Paper) → List Paper → List String →
    List Paper × List String × Bool
  | [], out, seen => (out, seen, false)
  | none :: items, out, seen => addItems rows items out seen
  | some it :: items, out, seen =>
    if it.key ∈ seen then addItems rows items out seen
    else
      let out' := out ++ [it]
      if rows ≤ (out'.length : Int) then (out', seen ++ [it.key], true)
      else addItems rows items out' (seen ++ [it.key])

/-- The provider loop of `search_title`, with the accumulated results, seen
keys and recorded errors made explicit. -/
def stGo (q : String) (rows : Int) : List Provider → List Paper →
    List String → List String → Except String (List Paper)
  | [], out, _, errors =>
    if out = [] ∧ errors ≠ [] then .error titleErrMsg else .ok out
  | p :: ps, out, seen, errors =>
    match callSearchTitle p.client q rows with
    | .error e => stGo q rows ps out seen (errors ++ [p.name ++ ": " ++ e])
    | .ok items =>
      match addItems rows items out seen with
      | (out', seen', done) => if done then .ok out' else stGo q rows ps out' seen' errors

/-- `LiteratureService.search_title` of `literature.py`. -/
def LiteratureService.search_title (s : LiteratureService) (title : String)
    (rows : Int) : Except String (List Paper) :=
  let q := pyStrip title
  if q = "" then .ok []
  else stGo q rows s.title_order [] [] []

/-- The re-normalisation of a found record's `doi` field inside
`lookup_doi` (a fresh `Paper` is built only when `it.doi` is truthy). -/
def renormPaper (it : Paper) : Paper :=
  if strTruthy it.doi then
    { title := it.title, year := it.year,
      doi := some (rstripPunct (normalize_doi (it.doi.getD ""))),
      url := it.url, authors := it.authors, source := it.source,
      cited_by := it.cited_by }
  else it

/-- The provider loop of `lookup_doi`, accumulated errors explicit. -/
def ldGo (d : String) : List Provider → List String →
    Except String (Option Paper)
  | [], errors => if errors ≠ [] then .error doiErrMsg else .ok none
  | p :: ps, errors =>
    match callLookupDoi p.client d with
    | .error e => ldGo d ps (errors ++ [p.name ++ ": " ++ e])
    | .ok none => ldGo d ps errors
    | .ok (some it) => .ok (some (renormPaper it))

/-- `LiteratureService.lookup_doi` of `literature.py`. -/
def LiteratureService.lookup_doi (s : LiteratureService) (doi : String) :
    Except String (Option Paper) :=
  let d := rstripPunct (normalize_doi doi)
  if d = "" then .ok none
  else ldGo d s.doi_order []

/-- Python's slice `lst[:k]` for an `int` `k` (negative `k` counts from the
end). -/
def pySliceTo (k : Int) (l : List Paper) : List Paper :=
  if 0 ≤ k then l.take k.toNat else l.take (l.length - (-k).toNat)

/-- `LiteratureService.search` of `literature.py`: trim, return `[]` on
blank input, branch on `looks_like_doi`, wrap or truncate. -/
def LiteratureService.search (s : LiteratureService) (query : String)
    (rows : Int) : Except String (List Paper) :=
  let q := pyStrip query
  if q = "" then .ok []
  else if looks_like_doi q then
    match s.lookup_doi q with
    | .error e => .error e
    | .ok (some p) => .ok [p]
    | .ok none => .ok []
  else
    match s.search_title q rows with
    | .error e => .error e
    | .ok items => .ok (pySliceTo rows items)

/-! ### Helper lemmas about whitespace stripping -/

theorem dropWhile_dropWhile {α : Type} (p : α → Bool) (l : List α) :
    (l.dropWhile p).dropWhile p = l.dropWhile p := by
  induction l with
  | nil => simp
  | cons a l ih =>
    by_cases h : p a
    · simpa [List.dropWhile_cons_of_pos h] using ih
    · simp [List.dropWhile_cons_of_neg h]

theorem dropWhile_append_last {α : Type} (p : α → Bool) (u : List α) (c : α)
    (hc : p c = false) : (u ++ [c]).dropWhile p = u.dropWhile p ++ [c] := by
  have hcn : ¬ p c = true := by simp [hc]
  induction u with
  | nil => simp [List.dropWhile_cons_of_neg hcn]
  | cons a u ih =>
    by_cases h : p a
    · simpa [List.dropWhile_cons_of_pos h] using ih
    · simp [List.dropWhile_cons_of_neg h]

/-- A list whose front is already stripped stays front-stripped after its
back is stripped. -/
theorem dropWhile_rev_dropWhile_rev {α : Type} (p : α → Bool) (y : List α)
    (hy : y.dropWhile p = y) :
    ((y.reverse.dropWhile p).reverse).dropWhile p
      = (y.reverse.dropWhile p).reverse := by
  cases y with
  | nil => simp
  | cons c ys =>
    have hc : p c = false := by
      by_contra hb
      have hpc : p c = true := by
        cases h : p c
        · exact absurd h hb
        · rfl
      have := congrArg List.length hy
      simp only [List.dropWhile_cons_of_pos hpc, List.length_cons] at this
      have hle := dropWhile_length_le p ys
      omega
    have hcn : ¬ p c = true := by simp [hc]
    rw [List.reverse_cons, dropWhile_append_last p ys.reverse c hc,
      List.reverse_append]
    simp [List.dropWhile_cons_of_neg hcn]

/-- Python `strip()` is idempotent. -/
theorem pyStrip_idem (s : String) : pyStrip (pyStrip s) = pyStrip s := by
  unfold pyStrip
  have h1 : ∀ l : List Char,
      (⟨l⟩ : String).data = l := fun _ => rfl
  simp only [h1]
  have hy : (s.data.dropWhile isPySpace).dropWhile isPySpace
      = s.data.dropWhile isPySpace := dropWhile_dropWhile _ _
  rw [dropWhile_rev_dropWhile_rev isPySpace _ hy, List.reverse_reverse,
    dropWhile_dropWhile]

/-- `normalize_doi` always yields a whitespace-stripped string. -/
theorem pyStrip_normalize_doi (s : String) :
    pyStrip (normalize_doi s) = normalize_doi s := by
  unfold normalize_doi
  exact pyStrip_idem _

/-! ### Helper lemmas about the DOI pattern -/

theorem takeWhile_digits_append (ds tail : List Char)
    (h : ∀ d ∈ ds, d.isDigit = true) :
    (ds ++ '/' :: tail).takeWhile Char.isDigit = ds ∧
      (ds ++ '/' :: tail).dropWhile Char.isDigit = '/' :: tail := by
  induction ds with
  | nil =>
    constructor
    · simp [List.takeWhile_cons_of_neg (by decide : ¬ Char.isDigit '/' = true)]
    · simp [List.dropWhile_cons_of_neg (by decide : ¬ Char.isDigit '/' = true)]
  | cons d ds ih =>
    have hd : d.isDigit = true := h d (by simp)
    have ih' := ih (fun x hx => h x (by simp [hx]))
    constructor
    · simp [List.takeWhile_cons_of_pos hd, ih'.1]
    · simp [List.dropWhile_cons_of_pos hd, ih'.2]

/-- The skeleton matcher agrees with its declarative reading. -/
theorem doiStem_eq_some_iff (cs tail : List Char) :
    doiStem cs = some tail ↔
      ∃ ds, cs = '1' :: '0' :: '.' :: (ds ++ '/' :: tail) ∧
        4 ≤ ds.length ∧ ds.length ≤ 9 ∧ ∀ d ∈ ds, d.isDigit = true := by
  constructor
  · intro h
    unfold doiStem at h
    split at h
    · rename_i rest
      split at h
      · rename_i hlen
        split at h
        · rename_i tail' heq
          have htl : tail' = tail := by simpa using h
          subst htl
          refine ⟨rest.takeWhile Char.isDigit, ?_, hlen.1, hlen.2, ?_⟩
          · rw [← heq, List.takeWhile_append_dropWhile]
          · exact fun d hd => List.mem_takeWhile_imp hd
        · exact absurd h (by simp)
      · exact absurd h (by simp)
    · exact absurd h (by simp)
  · rintro ⟨ds, rfl, h4, h9, hdig⟩
    have hsp := takeWhile_digits_append ds tail hdig
    simp [doiStem, hsp.1, hsp.2, h4, h9]

/-- Declarative reading of `DOI_RE.match` (anchored at the start only): the
normalized string begins with `10.`, a 4–9 digit registrant, a slash, and at
least one non-whitespace character. -/
def doiSpecStart (s : String) : Prop :=
  ∃ ds c rest, s.data = '1' :: '0' :: '.' :: (ds ++ '/' :: c :: rest) ∧
    4 ≤ ds.length ∧ ds.length ≤ 9 ∧ (∀ d ∈ ds, d.isDigit = true) ∧
    isPySpace c = false

/-- Declarative reading of `DOI_RE.fullmatch`: the whole string is the DOI
pattern, every character after the slash non-whitespace and at least one. -/
def doiSpecFull (s : String) : Prop :=
  ∃ ds tail, s.data = '1' :: '0' :: '.' :: (ds ++ '/' :: tail) ∧
    4 ≤ ds.length ∧ ds.length ≤ 9 ∧ (∀ d ∈ ds, d.isDigit = true) ∧
    tail ≠ [] ∧ ∀ c ∈ tail, isPySpace c = false

theorem doiStart_iff (s : String) : doiStart s = true ↔ doiSpecStart s := by
  constructor
  · intro h
    unfold doiStart at h
    split at h
    case h_1 tail c rest heq =>
      obtain ⟨ds, hcs, h4, h9, hdig⟩ := (doiStem_eq_some_iff s.data _).1 heq
      exact ⟨ds, c, rest, hcs, h4, h9, hdig, by simpa using h⟩
    case h_2 => cases h
  · rintro ⟨ds, c, rest, hcs, h4, h9, hdig, hc⟩
    have hstem : doiStem s.data = some (c :: rest) :=
      (doiStem_eq_some_iff s.data _).2 ⟨ds, hcs, h4, h9, hdig⟩
    unfold doiStart
    rw [hstem]
    simp [hc]

theorem doiFull_iff (s : String) : doiFull s = true ↔ doiSpecFull s := by
  constructor
  · intro h
    unfold doiFull at h
    split at h
    case h_1 tail heq =>
      obtain ⟨ds, hcs, h4, h9, hdig⟩ := (doiStem_eq_some_iff s.data _).1 heq
      simp only [Bool.and_eq_true, List.all_eq_true] at h
      refine ⟨ds, tail, hcs, h4, h9, hdig, ?_, ?_⟩
      · intro hnil; rw [hnil] at h; simp at h
      · intro c hc
        have := h.2 c hc
        simpa using this
    case h_2 => cases h
  · rintro ⟨ds, tail, hcs, h4, h9, hdig, hnil, hns⟩
    have hstem : doiStem s.data = some tail :=
      (doiStem_eq_some_iff s.data _).2 ⟨ds, hcs, h4, h9, hdig⟩
    unfold doiFull
    rw [hstem]
    simp only [Bool.and_eq_true, List.all_eq_true]
    constructor
    · cases tail with
      | nil => exact absurd rfl hnil
      | cons a t => simp
    · intro c hc
      simp [hns c hc]

/-- A full match is in particular a match at the start. -/
theorem doiFull_imp_doiStart (s : String) (h : doiFull s = true) :
    doiStart s = true := by
  unfold doiFull at h
  unfold doiStart
  split at h
  case h_1 tail heq =>
    rw [heq]
    cases tail with
    | nil => simp at h
    | cons c rest =>
      simp only [Bool.and_eq_true, List.all_eq_true] at h
      simpa using h.2 c (by simp)
  case h_2 => cases h

/-- `looks_like_doi` is exactly the anchored-at-start match of the DOI
pattern against the normalized, punctuation-stripped input. -/
theorem looks_like_doi_eq_doiStart (raw : String) :
    looks_like_doi raw = doiStart (rstripPunct (normalize_doi raw)) := by
  unfold looks_like_doi
  cases hf : doiFull (rstripPunct (normalize_doi raw))
  · simp [hf]
  · simp [hf, doiFull_imp_doiStart _ hf]

/-! ### Outcome classifiers (decidable views of one adapter's answer) -/

/-- The adapter's answer carries no record (`None`, a non-`Paper` value, or
a raised exception) — everything except `return` of a `Paper`. -/
def noRecord (r : Except String (Option Paper)) : Bool :=
  match r with
  | .ok (some _) => false
  | _ => true

/-- The adapter raised (a Source Error or any other exception). -/
def isErrD (r : Except String (Option Paper)) : Bool :=
  match r with
  | .error _ => true
  | _ => false

/-- A title search answer that raised. -/
def isErrT (r : Except String (List (Option Paper))) : Bool :=
  match r with
  | .error _ => true
  | _ => false

/-- A title search answer contributing no `Paper` at all (raised, or every
returned element is a non-`Paper`). -/
def noPapers (r : Except String (List (Option Paper))) : Bool :=
  match r with
  | .ok items => items.all (·.isNone)
  | .error _ => true

theorem noRecord_and_not_err (r : Except String (Option Paper))
    (h1 : noRecord r = true) (h2 : isErrD r = false) : r = .ok none := by
  cases r with
  | error e => simp [isErrD] at h2
  | ok o =>
    cases o with
    | none => rfl
    | some it => simp [noRecord] at h1

/-! ### Lemmas about the `lookup_doi` provider loop -/

/-- When no provider in the list produces a record, the loop ends with
"not found" exactly when nothing was ever recorded as an error. -/
theorem ldGo_noRecord (d : String) (ps : List Provider) (errs : List String)
    (h : ∀ p ∈ ps, noRecord (callLookupDoi p.client d) = true) :
    ldGo d ps errs =
      if errs = [] ∧ ∀ p ∈ ps, isErrD (callLookupDoi p.client d) = false
      then .ok none else .error doiErrMsg := by
  induction ps generalizing errs with
  | nil =>
    by_cases he : errs = [] <;> simp [ldGo, he]
  | cons p ps ih =>
    have hp := h p (by simp)
    have hrest : ∀ q ∈ ps, noRecord (callLookupDoi q.client d) = true :=
      fun q hq => h q (by simp [hq])
    cases hc : callLookupDoi p.client d with
    | error e =>
      have herr : isErrD (callLookupDoi p.client d) = true := by
        simp [isErrD, hc]
      rw [show ldGo d (p :: ps) errs
          = ldGo d ps (errs ++ [p.name ++ ": " ++ e]) by simp [ldGo, hc]]
      rw [ih _ hrest]
      have hne : ¬ (errs ++ [p.name ++ ": " ++ e] = []) := by simp
      have hfail : ¬ (errs = [] ∧
          ∀ q ∈ p :: ps, isErrD (callLookupDoi q.client d) = false) := by
        rintro ⟨-, hall⟩
        have := hall p (by simp)
        rw [herr] at this
        cases this
      rw [if_neg (fun hco => hne hco.1), if_neg hfail]
    | ok o =>
      cases o with
      | none =>
        rw [show ldGo d (p :: ps) errs = ldGo d ps errs by simp [ldGo, hc]]
        rw [ih _ hrest]
        have hpe : isErrD (callLookupDoi p.client d) = false := by
          simp [isErrD, hc]
        by_cases hcond : errs = [] ∧
            ∀ q ∈ ps, isErrD (callLookupDoi q.client d) = false
        · have : errs = [] ∧
              ∀ q ∈ p :: ps, isErrD (callLookupDoi q.client d) = false := by
            refine ⟨hcond.1, ?_⟩
            intro q hq
            rcases List.mem_cons.1 hq with rfl | hq2
            · exact hpe
            · exact hcond.2 q hq2
          rw [if_pos hcond, if_pos this]
        · have : ¬ (errs = [] ∧
              ∀ q ∈ p :: ps, isErrD (callLookupDoi q.client d) = false) := by
            rintro ⟨h1, h2⟩
            exact hcond ⟨h1, fun q hq => h2 q (by simp [hq])⟩
          rw [if_neg hcond, if_neg this]
      | some it =>
        rw [hc] at hp
        simp [noRecord] at hp

/-- Providers that produce no record are skipped (with or without an error
recorded); the loop continues on the remaining providers. -/
theorem ldGo_skip (d : String) (pre ps : List Provider)
    (h : ∀ p ∈ pre, noRecord (callLookupDoi p.client d) = true)
    (errs : List String) :
    ∃ errs2, ldGo d (pre ++ ps) errs = ldGo d ps errs2 := by
  induction pre generalizing errs with
  | nil => exact ⟨errs, rfl⟩
  | cons p pre ih =>
    have hrest : ∀ q ∈ pre, noRecord (callLookupDoi q.client d) = true :=
      fun q hq => h q (by simp [hq])
    cases hc : callLookupDoi p.client d with
    | error e =>
      rw [show ldGo d ((p :: pre) ++ ps) errs
          = ldGo d (pre ++ ps) (errs ++ [p.name ++ ": " ++ e]) by
        simp [ldGo, hc]]
      exact ih hrest _
    | ok o =>
      cases o with
      | none =>
        rw [show ldGo d ((p :: pre) ++ ps) errs
            = ldGo d (pre ++ ps) errs by simp [ldGo, hc]]
        exact ih hrest _
      | some it =>
        have hp := h p (by simp)
        rw [hc] at hp
        simp [noRecord] at hp

/-! ### Lemmas about the `search_title` provider loop -/

theorem addItems_allNone (rows : Int) (items : List (Option Paper))
    (out : List Paper) (seen : List String) (h : ∀ x ∈ items, x = none) :
    addItems rows items out seen = (out, seen, false) := by
  induction items with
  | nil => rfl
  | cons x items ih =>
    cases x with
    | none => exact ih (fun y hy => h y (by simp [hy]))
    | some it => exact absurd (h (some it) (by simp)) (by simp)

/-- When no provider contributes a `Paper`, the title loop returns the empty
list exactly when nothing was ever recorded as an error. -/
theorem stGo_noPapers (q : String) (rows : Int) (ps : List Provider)
    (seen errs : List String)
    (h : ∀ p ∈ ps, noPapers (callSearchTitle p.client q rows) = true) :
    stGo q rows ps [] seen errs =
      if errs = [] ∧ ∀ p ∈ ps, isErrT (callSearchTitle p.client q rows) = false
      then .ok [] else .error titleErrMsg := by
  induction ps generalizing seen errs with
  | nil =>
    by_cases he : errs = [] <;> simp [stGo, he]
  | cons p ps ih =>
    have hp := h p (by simp)
    have hrest : ∀ q2 ∈ ps, noPapers (callSearchTitle q2.client q rows) = true :=
      fun q2 hq => h q2 (by simp [hq])
    cases hc : callSearchTitle p.client q rows with
    | error e =>
      have herr : isErrT (callSearchTitle p.client q rows) = true := by
        simp [isErrT, hc]
      rw [show stGo q rows (p :: ps) [] seen errs
          = stGo q rows ps [] seen (errs ++ [p.name ++ ": " ++ e]) by
        simp [stGo, hc]]
      rw [ih _ _ hrest]
      have hne : ¬ (errs ++ [p.name ++ ": " ++ e] = []) := by simp
      have hfail : ¬ (errs = [] ∧
          ∀ q2 ∈ p :: ps, isErrT (callSearchTitle q2.client q rows) = false) := by
        rintro ⟨-, hall⟩
        have := hall p (by simp)
        rw [herr] at this
        cases this
      rw [if_neg (fun hco => hne hco.1), if_neg hfail]
    | ok items =>
      have hnone : ∀ x ∈ items, x = none := by
        rw [hc] at hp
        simp only [noPapers, List.all_eq_true] at hp
        intro x hx
        exact Option.isNone_iff_eq_none.1 (hp x hx)
      rw [show stGo q rows (p :: ps) [] seen errs
          = stGo q rows ps [] seen errs by
        simp [stGo, hc, addItems_allNone rows items [] seen hnone]]
      rw [ih _ _ hrest]
      have hpe : isErrT (callSearchTitle p.client q rows) = false := by
        simp [isErrT, hc]
      by_cases hcond : errs = [] ∧
          ∀ q2 ∈ ps, isErrT (callSearchTitle q2.client q rows) = false
      · have : errs = [] ∧
            ∀ q2 ∈ p :: ps, isErrT (callSearchTitle q2.client q rows) = false := by
          refine ⟨hcond.1, ?_⟩
          intro q2 hq
          rcases List.mem_cons.1 hq with rfl | hq2
          · exact hpe
          · exact hcond.2 q2 hq2
        rw [if_pos hcond, if_pos this]
      · have : ¬ (errs = [] ∧
            ∀ q2 ∈ p :: ps, isErrT (callSearchTitle q2.client q rows) = false) := by
          rintro ⟨h1, h2⟩
          exact hcond ⟨h1, fun q2 hq => h2 q2 (by simp [hq])⟩
        rw [if_neg hcond, if_neg this]

/-- One unfolding step of the inner loop at an accepted candidate. -/
theorem addItems_cons_some (rows : Int) (it : Paper)
    (items : List (Option Paper)) (out : List Paper) (seen : List String) :
    addItems rows (some it :: items) out seen =
      if it.key ∈ seen then addItems rows items out seen
      else if rows ≤ (((out ++ [it]).length : Nat) : Int) then
        (out ++ [it], seen ++ [it.key], true)
      else addItems rows items (out ++ [it]) (seen ++ [it.key]) := rfl

/-- Accepted results never exceed the limit once it is positive: the inner
loop signals `done` only at or above the limit, and below the limit each
append keeps the count at most the limit. -/
theorem addItems_bound (rows : Int) (items : List (Option Paper))
    (out : List Paper) (seen : List String) :
    ((addItems rows items out seen).2.2 = false →
      (((addItems rows items out seen).1.length : Int) < rows ∨
        (addItems rows items out seen).1 = out)) ∧
    ((out.length : Int) < rows →
      (((addItems rows items out seen).1.length : Int) ≤ rows)) := by
  induction items generalizing out seen with
  | nil =>
    refine ⟨fun _ => Or.inr rfl, fun h => le_of_lt ?_⟩
    simpa [addItems] using h
  | cons x items ih =>
    cases x with
    | none => simpa [addItems] using ih out seen
    | some it =>
      rw [addItems_cons_some]
      by_cases hk : it.key ∈ seen
      · rw [if_pos hk]
        exact ih out seen
      · rw [if_neg hk]
        by_cases hr : rows ≤ (((out ++ [it]).length : Nat) : Int)
        · rw [if_pos hr]
          constructor
          · intro hdone
            cases hdone
          · intro hlt
            have hlen : (out ++ [it]).length = out.length + 1 := by simp
            show ((out ++ [it]).length : Int) ≤ rows
            rw [hlen]
            push_cast
            omega
        · rw [if_neg hr]
          have hlen : (out ++ [it]).length = out.length + 1 := by simp
          have hlt' : ((out ++ [it]).length : Int) < rows := by
            rw [hlen] at hr ⊢
            push_cast at hr ⊢
            omega
          constructor
          · intro hdone
            rcases (ih (out ++ [it]) (seen ++ [it.key])).1 hdone with h1 | h1
            · exact Or.inl h1
            · exact Or.inl (by rw [h1]; exact hlt')
          · intro _
            exact (ih (out ++ [it]) (seen ++ [it.key])).2 hlt'

/-- The seen-set invariant: accepted keys are distinct and every accepted
key has been marked seen. -/
def KeysInv (out : List Paper) (seen : List String) : Prop :=
  (out.map Paper.key).Nodup ∧ ∀ p ∈ out, p.key ∈ seen

theorem addItems_keys (rows : Int) (items : List (Option Paper))
    (out : List Paper) (seen : List String) (hinv : KeysInv out seen) :
    KeysInv (addItems rows items out seen).1
        (addItems rows items out seen).2.1 := by
  induction items generalizing out seen with
  | nil => simpa [addItems] using hinv
  | cons x items ih =>
    cases x with
    | none => simpa [addItems] using ih out seen hinv
    | some it =>
      by_cases hk : it.key ∈ seen
      · simpa [addItems, hk] using ih out seen hinv
      · have hnotin : it.key ∉ out.map Paper.key := by
          intro hmem
          obtain ⟨p, hp, hpk⟩ := List.mem_map.1 hmem
          exact hk (hpk ▸ hinv.2 p hp)
        have hinv' : KeysInv (out ++ [it]) (seen ++ [it.key]) := by
          constructor
          · rw [List.map_append]
            refine List.Nodup.append hinv.1 (by simp) ?_
            intro a ha hb
            simp only [List.map_cons, List.map_nil, List.mem_singleton] at hb
            exact hnotin (hb ▸ ha)
          · intro p hp
            rcases List.mem_append.1 hp with hp1 | hp1
            · exact List.mem_append.2 (Or.inl (hinv.2 p hp1))
            · simp only [List.mem_singleton] at hp1
              subst hp1
              exact List.mem_append.2 (Or.inr (by simp))
        rw [addItems_cons_some, if_neg hk]
        by_cases hr : rows ≤ (((out ++ [it]).length : Nat) : Int)
        · rw [if_pos hr]
          exact hinv'
        · rw [if_neg hr]
          exact ih (out ++ [it]) (seen ++ [it.key]) hinv'

/-- Any successful title traversal keeps keys distinct, and keeps the count
at most the limit provided it started strictly below it. -/
theorem stGo_ok_inv (q : String) (rows : Int) (ps : List Provider)
    (out : List Paper) (seen errs : List String) (res : List Paper)
    (hinv : KeysInv out seen)
    (h : stGo q rows ps out seen errs = .ok res) :
    (res.map Paper.key).Nodup ∧
      ((out.length : Int) < rows → (res.length : Int) ≤ rows) := by
  induction ps generalizing out seen errs with
  | nil =>
    by_cases hc : out = [] ∧ errs ≠ []
    · simp [stGo, hc] at h
    · rw [show stGo q rows [] out seen errs = .ok out by simp [stGo, hc]] at h
      obtain rfl : out = res := by simpa using h
      exact ⟨hinv.1, fun hlt => le_of_lt hlt⟩
  | cons p ps ih =>
    cases hc : callSearchTitle p.client q rows with
    | error e =>
      rw [show stGo q rows (p :: ps) out seen errs
          = stGo q rows ps out seen (errs ++ [p.name ++ ": " ++ e]) by
        simp [stGo, hc]] at h
      exact ih out seen _ hinv h
    | ok items =>
      have hstep : stGo q rows (p :: ps) out seen errs
          = (if (addItems rows items out seen).2.2 then
              .ok (addItems rows items out seen).1
            else
              stGo q rows ps (addItems rows items out seen).1
                (addItems rows items out seen).2.1 errs) := by
        simp [stGo, hc]
      rw [hstep] at h
      have hkeys := addItems_keys rows items out seen hinv
      have hbnd := addItems_bound rows items out seen
      by_cases hdone : (addItems rows items out seen).2.2 = true
      · rw [if_pos hdone] at h
        obtain rfl : (addItems rows items out seen).1 = res := by simpa using h
        exact ⟨hkeys.1, fun hlt => hbnd.2 hlt⟩
      · rw [if_neg hdone] at h
        have hrec := ih _ _ _ hkeys h
        refine ⟨hrec.1, fun hlt => ?_⟩
        rcases hbnd.1 (by simpa using hdone) with h1 | h1
        · exact hrec.2 h1
        · exact hrec.2 (by rw [h1]; exact hlt)

/-! ### Concrete fixtures used by counterexamples and witnesses -/

instance exceptDecEq {ε α : Type} [DecidableEq ε] [DecidableEq α] :
    DecidableEq (Except ε α) := fun a b =>
  match a, b with
  | .error e, .error f =>
    if h : e = f then isTrue (by rw [h])
    else isFalse (by intro hc; cases hc; exact h rfl)
  | .error _, .ok _ => isFalse (by intro hc; cases hc)
  | .ok _, .error _ => isFalse (by intro hc; cases hc)
  | .ok x, .ok y =>
    if h : x = y then isTrue (by rw [h])
    else isFalse (by intro hc; cases hc; exact h rfl)

/-- A lookup-capable client whose call always raises. -/
def errClientD : Client := ⟨none, some (fun _ => .error "boom")⟩

/-- A lookup-capable client that always reports "not found". -/
def noneClientD : Client := ⟨none, some (fun _ => .ok none)⟩

/-- A fixed record used by concrete scenarios. -/
def paperA : Paper :=
  { title := "Attention is all you need", doi := some "10.1234/X", source := "src1" }

/-- A lookup-capable client that always finds `paperA`. -/
def hitClientD : Client := ⟨none, some (fun _ => .ok (some paperA))⟩

/-- A title-capable client returning a single record. -/
def oneClientT : Client := ⟨some (fun _ _ => .ok [some paperA]), none⟩

/-- A title-capable client whose call always raises. -/
def errClientT : Client := ⟨some (fun _ _ => .error "down"), none⟩

def provErrD : Provider := ⟨"perr", false, true, errClientD⟩
def provNoneD : Provider := ⟨"pnone", false, true, noneClientD⟩
def provHitD : Provider := ⟨"phit", false, true, hitClientD⟩
def provOneT : Provider := ⟨"pone", true, false, oneClientT⟩
def provErrT : Provider := ⟨"terr", true, false, errClientT⟩

/-- A service whose lookup chain sees one raising adapter then one
"not found" adapter. -/
def svcMixed : LiteratureService := ⟨[provErrD, provNoneD]⟩

/-- A service with a single title adapter returning one record. -/
def svcOne : LiteratureService := ⟨[provOneT]⟩

/-! ### The rate limiter, with the monotonic clock passed explicitly -/

/-- State of `RateLimiter` of `_common.py`: the stored minimum interval and
the last-dispatch timestamp.  Time is modelled by rationals read from the
monotonic clock and passed in explicitly. -/
structure RateLimiterState where
  min_interval : ℚ
  last_ts : ℚ

/-- `RateLimiter.__init__`: the stored interval is clamped below at `0.0`
and the last timestamp starts at `0.0`. -/
def rateLimiterInit (minInterval : ℚ) : RateLimiterState :=
  ⟨max 0 minInterval, 0⟩

/-- `RateLimiter.wait`: `now` is the clock read inside the critical section;
the first component of the result is the moment the caller is released
(`asyncio.sleep` modelled as sleeping exactly the requested amount), and the
new state stores that release moment as the fresh `monotonic()` reading
taken after the sleep.  A non-positive stored interval returns immediately
without touching the state. -/
def RateLimiterState.wait (st : RateLimiterState) (now : ℚ) :
    ℚ × RateLimiterState :=
  if st.min_interval ≤ 0 then (now, st)
  else if now - st.last_ts < st.min_interval then
    (now + (st.min_interval - (now - st.last_ts)),
     ⟨st.min_interval, now + (st.min_interval - (now - st.last_ts))⟩)
  else (now, ⟨st.min_interval, now⟩)

/-- With a positive interval, `wait` releases at `max now (last + I)` and
records that moment. -/
theorem wait_pos (I last now : ℚ) (hI : 0 < I) :
    RateLimiterState.wait ⟨I, last⟩ now
      = (max now (last + I), ⟨I, max now (last + I)⟩) := by
  unfold RateLimiterState.wait
  rw [if_neg (not_le.2 hI)]
  by_cases h : now - last < I
  · rw [if_pos h]
    have h1 : now + (I - (now - last)) = last + I := by ring
    have hm : max now (last + I) = last + I := max_eq_right (by linarith)
    rw [h1, hm]
  · rw [if_neg h]
    have hm : max now (last + I) = now := by
      have := not_lt.1 h
      exact max_eq_left (by linarith)
    rw [hm]

/-! ### The provider wiring of `init_services` -/

/-- The `CrossrefClient` as the orchestrator's duck typing sees it: the
class defines methods named `search`, `search_by_author` and `by_doi`, but
none named `search_title` or `lookup_doi`, so both duck-typed slots are
absent and every aggregator call through it raises `AttributeError`. -/
def crossrefClient : Client := ⟨none, none⟩

/-- The provider list built by `init_services` of `bot/services/__init__.py`
(the nine other clients kept abstract; `crossref` is registered first with
both capabilities). -/
def initProviders (openalex semanticscholar europepmc pubmed plos osf doaj
    medrxiv biorxiv : Client) : List Provider :=
  [⟨"crossref", true, true, crossrefClient⟩,
   ⟨"openalex", true, true, openalex⟩,
   ⟨"semanticscholar", true, true, semanticscholar⟩,
   ⟨"europepmc", true, true, europepmc⟩,
   ⟨"pubmed", true, true, pubmed⟩,
   ⟨"plos", true, true, plos⟩,
   ⟨"osf", true, true, osf⟩,
   ⟨"doaj", true, true, doaj⟩,
   ⟨"medrxiv", false, true, medrxiv⟩,
   ⟨"biorxiv", false, true, biorxiv⟩]

/-- The `LiteratureService` built by `init_services`. -/
def initService (openalex semanticscholar europepmc pubmed plos osf doaj
    medrxiv biorxiv : Client) : LiteratureService :=
  ⟨initProviders openalex semanticscholar europepmc pubmed plos osf doaj
    medrxiv biorxiv⟩

/-! ## Claim theorems -/

/-- C3 counterexample: `looks_like_doi` accepts `"10.1234/abc def"` even
though its normalized, punctuation-stripped form (the string itself) does
not match the DOI pattern as a whole — the claim's "entire remaining string"
reading is false, because the code also accepts a mere prefix match. -/
theorem looks_like_doi_counterexample :
    looks_like_doi "10.1234/abc def" = true ∧
    ¬ doiSpecFull (rstripPunct (normalize_doi "10.1234/abc def")) := by
  constructor
  · decide
  · intro h
    have hb := (doiFull_iff _).2 h
    rw [show doiFull (rstripPunct (normalize_doi "10.1234/abc def")) = false
      by decide] at hb
    cases hb

/-- C3 amended: `looks_like_doi raw` is true iff the DOI pattern
`10\.[0-9]{4,9}/\S+` matches at the START of the normalized,
punctuation-stripped input (one non-whitespace character after the slash
suffices; trailing extra text is allowed); the spec's concrete examples
all hold. -/
theorem looks_like_doi_amended (raw : String) :
    (looks_like_doi raw = true ↔
      doiSpecStart (rstripPunct (normalize_doi raw))) ∧
    looks_like_doi "10.1037/0003-066X.59.1.9" = true ∧
    looks_like_doi "https://doi.org/10.1037/a0029146)." = true ∧
    rstripPunct (normalize_doi "https://doi.org/10.1037/a0029146).")
      = "10.1037/a0029146" ∧
    looks_like_doi "cognitive bias" = false := by
  refine ⟨?_, by decide, by decide, by decide, by decide⟩
  rw [looks_like_doi_eq_doiStart]
  exact doiStart_iff _

/-- C3 amended witness at a concrete input. -/
theorem looks_like_doi_amended_witness :
    doiSpecStart (rstripPunct (normalize_doi "10.1037/0003-066X.59.1.9")) :=
  (looks_like_doi_amended "10.1037/0003-066X.59.1.9").1.mp (by decide)

/-- C5 counterexample: `normalize_doi` is not idempotent; a nested `doi:`
label survives the first pass and is removed by the second. -/
theorem normalize_doi_not_idempotent :
    normalize_doi (normalize_doi "doi: doi:10.1/x")
      ≠ normalize_doi "doi: doi:10.1/x" := by
  decide

/-- C5 amended: `normalize_doi` is idempotent on every input whose
normalized form does not itself begin with another strippable `doi:` label
or doi.org URL (equivalently: whenever the two prefix removals act as the
identity on the first pass's output). -/
theorem normalize_doi_idem_amended (s : String)
    (h1 : stripDoiLabel (normalize_doi s).data = (normalize_doi s).data)
    (h2 : stripDoiUrl (normalize_doi s).data = (normalize_doi s).data) :
    normalize_doi (normalize_doi s) = normalize_doi s := by
  conv_lhs => rw [normalize_doi]
  rw [pyStrip_normalize_doi, h1, h2]
  exact pyStrip_normalize_doi s

/-- C5 amended witness at a concrete input. -/
theorem normalize_doi_idem_amended_witness :
    normalize_doi (normalize_doi "doi:10.1000/xyz ")
      = normalize_doi "doi:10.1000/xyz " :=
  normalize_doi_idem_amended "doi:10.1000/xyz " (by decide) (by decide)

/-- C1 counterexample: one adapter reports "not found" (`None`), the other
raises; no adapter returns a record — yet `lookup_doi` raises the
Aggregation Error instead of returning "not found" as success. -/
theorem lookup_doi_mix_counterexample :
    callLookupDoi provNoneD.client (rstripPunct (normalize_doi "10.1234/x"))
      = .ok none ∧
    (∀ p ∈ svcMixed.doi_order,
      noRecord (callLookupDoi p.client
        (rstripPunct (normalize_doi "10.1234/x"))) = true) ∧
    svcMixed.lookup_doi "10.1234/x" = .error doiErrMsg := by
  refine ⟨rfl, by decide, by decide⟩

/-- C1 amended: when no adapter returns a record and the normalized
identifier is non-blank, `lookup_doi` returns "not found" as success
exactly when EVERY consulted adapter reported "not found" without raising;
as soon as at least one adapter raised (even with others reporting "not
found"), the whole call raises the Aggregation Error. -/
theorem lookup_doi_mix_amended (s : LiteratureService) (doi : String)
    (hd : rstripPunct (normalize_doi doi) ≠ "")
    (hnr : ∀ p ∈ s.doi_order,
      noRecord (callLookupDoi p.client (rstripPunct (normalize_doi doi)))
        = true) :
    (s.lookup_doi doi = .ok none ↔
      ∀ p ∈ s.doi_order,
        callLookupDoi p.client (rstripPunct (normalize_doi doi)) = .ok none) ∧
    ((∃ p ∈ s.doi_order,
        isErrD (callLookupDoi p.client (rstripPunct (normalize_doi doi)))
          = true) →
      s.lookup_doi doi = .error doiErrMsg) := by
  have hunf : s.lookup_doi doi
      = ldGo (rstripPunct (normalize_doi doi)) s.doi_order [] := by
    simp only [LiteratureService.lookup_doi]
    rw [if_neg hd]
  rw [hunf, ldGo_noRecord _ _ _ hnr]
  constructor
  · constructor
    · intro hok
      intro p hp
      by_cases hcond : ([] : List String) = [] ∧ ∀ q ∈ s.doi_order,
          isErrD (callLookupDoi q.client (rstripPunct (normalize_doi doi)))
            = false
      · exact noRecord_and_not_err _ (hnr p hp) (hcond.2 p hp)
      · rw [if_neg hcond] at hok
        cases hok
    · intro hall
      have hcond : ([] : List String) = [] ∧ ∀ q ∈ s.doi_order,
          isErrD (callLookupDoi q.client (rstripPunct (normalize_doi doi)))
            = false :=
        ⟨rfl, fun q hq => by rw [hall q hq]; rfl⟩
      rw [if_pos hcond]
  · rintro ⟨p, hp, hperr⟩
    have hcond : ¬ (([] : List String) = [] ∧ ∀ q ∈ s.doi_order,
        isErrD (callLookupDoi q.client (rstripPunct (normalize_doi doi)))
          = false) := by
      rintro ⟨-, hall⟩
      rw [hall p hp] at hperr
      cases hperr
    rw [if_neg hcond]

/-- C1 amended witness: the mixed service raises the Aggregation Error. -/
theorem lookup_doi_mix_amended_witness :
    svcMixed.lookup_doi "10.1234/x" = .error doiErrMsg :=
  (lookup_doi_mix_amended svcMixed "10.1234/x" (by decide) (by decide)).2
    ⟨provErrD,
      by rw [show svcMixed.doi_order = [provErrD, provNoneD] from rfl]
         exact List.mem_cons_self _ _,
      rfl⟩

/-- C4: a title traversal over adapters none of which contributes a record
raises the Aggregation Error iff at least one adapter raised, and returns
the empty list as success when every adapter succeeded with no records. -/
theorem search_title_empty_result (s : LiteratureService) (title : String)
    (rows : Int) (hq : pyStrip title ≠ "")
    (hnp : ∀ p ∈ s.title_order,
      noPapers (callSearchTitle p.client (pyStrip title) rows) = true) :
    (s.search_title title rows = .error titleErrMsg ↔
      ∃ p ∈ s.title_order,
        isErrT (callSearchTitle p.client (pyStrip title) rows) = true) ∧
    ((∀ p ∈ s.title_order,
        isErrT (callSearchTitle p.client (pyStrip title) rows) = false) →
      s.search_title title rows = .ok []) := by
  have hunf : s.search_title title rows
      = stGo (pyStrip title) rows s.title_order [] [] [] := by
    simp only [LiteratureService.search_title]
    rw [if_neg hq]
  rw [hunf, stGo_noPapers _ _ _ _ _ hnp]
  constructor
  · constructor
    · intro herr
      by_contra hne
      push_neg at hne
      have hcond : ([] : List String) = [] ∧ ∀ p ∈ s.title_order,
          isErrT (callSearchTitle p.client (pyStrip title) rows) = false := by
        refine ⟨rfl, fun p hp => ?_⟩
        cases h2 : isErrT (callSearchTitle p.client (pyStrip title) rows)
        · rfl
        · exact absurd h2 (hne p hp)
      rw [if_pos hcond] at herr
      cases herr
    · rintro ⟨p, hp, hperr⟩
      have hcond : ¬ (([] : List String) = [] ∧ ∀ q ∈ s.title_order,
          isErrT (callSearchTitle q.client (pyStrip title) rows) = false) := by
        rintro ⟨-, hall⟩
        rw [hall p hp] at hperr
        cases hperr
      rw [if_neg hcond]
  · intro hall
    rw [if_pos ⟨rfl, hall⟩]

/-- A title-capable client returning zero records. -/
def emptyClientT : Client := ⟨some (fun _ _ => .ok []), none⟩

def provEmptyT : Provider := ⟨"tempty", true, false, emptyClientT⟩

/-- A service whose title chain sees one raising adapter and one adapter
that legitimately finds nothing. -/
def svcNoRes : LiteratureService := ⟨[provErrT, provEmptyT]⟩

/-- C4 witness: with one raising adapter in the chain, the empty traversal
raises the Aggregation Error. -/
theorem search_title_empty_result_witness :
    svcNoRes.search_title "cognition" 5 = .error titleErrMsg :=
  (search_title_empty_result svcNoRes "cognition" 5 (by decide)
      (by decide)).1.mpr
    ⟨provErrT,
      by rw [show svcNoRes.title_order = [provErrT, provEmptyT] from rfl]
         exact List.mem_cons_self _ _,
      rfl⟩

/-- C7: the identifier is normalized and punctuation-stripped once and that
same string `d` is what every adapter receives; adapters are consulted in
the configured order, and the first adapter returning a record determines
the result — its record is returned with its embedded identifier field
re-normalized, for EVERY possible list of remaining adapters (so none of
them is consulted). -/
theorem lookup_doi_first_wins (s : LiteratureService) (doi : String)
    (pre rest : List Provider) (p : Provider) (it : Paper)
    (hd : rstripPunct (normalize_doi doi) ≠ "")
    (horder : s.doi_order = pre ++ p :: rest)
    (hpre : ∀ q ∈ pre,
      noRecord (callLookupDoi q.client (rstripPunct (normalize_doi doi)))
        = true)
    (hp : callLookupDoi p.client (rstripPunct (normalize_doi doi))
        = .ok (some it)) :
    s.lookup_doi doi = .ok (some (renormPaper it)) ∧
    (∀ x, it.doi = some x → x ≠ "" →
      (renormPaper it).doi = some (rstripPunct (normalize_doi x))) := by
  constructor
  · have hunf : s.lookup_doi doi
        = ldGo (rstripPunct (normalize_doi doi)) s.doi_order [] := by
      simp only [LiteratureService.lookup_doi]
      rw [if_neg hd]
    rw [hunf, horder]
    obtain ⟨errs2, hskip⟩ :=
      ldGo_skip (rstripPunct (normalize_doi doi)) pre (p :: rest) hpre []
    rw [hskip]
    simp [ldGo, hp]
  · intro x hx hxne
    simp [renormPaper, strTruthy, hx, hxne]

/-- A second lookup chain: two answerless adapters, then a hit, then one
more adapter (which must not be consulted). -/
def svcChain : LiteratureService :=
  ⟨[provErrD, provNoneD, provHitD, provNoneD]⟩

/-- C7 witness: the chained service returns the re-normalized first hit. -/
theorem lookup_doi_first_wins_witness :
    svcChain.lookup_doi "10.9999/zz" = .ok (some (renormPaper paperA)) :=
  (lookup_doi_first_wins svcChain "10.9999/zz" [provErrD, provNoneD]
    [provNoneD] provHitD paperA (by decide) rfl (by decide) rfl).1

/-- C9 counterexample: with `limit = 0` the traversal still accepts one
record (the length check runs only after an append), so the result exceeds
the limit. -/
theorem search_title_limit_counterexample :
    svcOne.search_title "query" 0 = .ok [paperA] ∧
    ¬ ((([paperA] : List Paper).length : Int) ≤ 0) := by
  refine ⟨by decide, by decide⟩

/-- C9 amended: every successful title search returns records with pairwise
distinct `key()`s, and — provided the limit is at least 1 — at most `limit`
records (for a non-positive limit the code can return one record). -/
theorem search_title_bound_amended (s : LiteratureService) (title : String)
    (rows : Int) (res : List Paper)
    (h : s.search_title title rows = .ok res) :
    (res.map Paper.key).Nodup ∧ (1 ≤ rows → (res.length : Int) ≤ rows) := by
  by_cases hq : pyStrip title = ""
  · simp only [LiteratureService.search_title, if_pos hq] at h
    obtain rfl : ([] : List Paper) = res := by simpa using h
    exact ⟨by simp, fun h1 => by simp; omega⟩
  · simp only [LiteratureService.search_title, if_neg hq] at h
    have hinv : KeysInv [] [] := ⟨by simp, by simp⟩
    have hres := stGo_ok_inv (pyStrip title) rows s.title_order [] [] [] res
      hinv h
    exact ⟨hres.1, fun h1 => hres.2 (by simpa using (by omega : (0 : Int) < rows))⟩

/-- C9 amended witness at a concrete service and limit. -/
theorem search_title_bound_amended_witness :
    (([paperA].map Paper.key).Nodup) ∧
      (1 ≤ (5 : Int) → ((([paperA] : List Paper).length : Int) ≤ 5)) :=
  search_title_bound_amended svcOne "query" 5 [paperA] (by decide)

/-- C6: `search` returns `[]` on blank (trimmed) input without consulting
adapters; on an identifier-looking query it delegates to the identifier
lookup (one-element list for a found record, empty for "not found", and the
lookup's error propagates); otherwise it delegates to the title search and
truncates the successful result to `limit`. -/
theorem search_dispatch (s : LiteratureService) (query : String)
    (rows : Int) :
    (pyStrip query = "" → s.search query rows = .ok []) ∧
    (pyStrip query ≠ "" → looks_like_doi (pyStrip query) = true →
      ((∀ p, s.lookup_doi (pyStrip query) = .ok (some p) →
          s.search query rows = .ok [p]) ∧
       (s.lookup_doi (pyStrip query) = .ok none →
          s.search query rows = .ok []) ∧
       (∀ e, s.lookup_doi (pyStrip query) = .error e →
          s.search query rows = .error e))) ∧
    (pyStrip query ≠ "" → looks_like_doi (pyStrip query) = false →
      0 ≤ rows → ∀ items,
        s.search_title (pyStrip query) rows = .ok items →
          s.search query rows = .ok (items.take rows.toNat)) := by
  refine ⟨?_, ?_, ?_⟩
  · intro hq
    simp [LiteratureService.search, hq]
  · intro hq hdoi
    refine ⟨?_, ?_, ?_⟩
    · intro p hp
      simp only [LiteratureService.search]
      rw [if_neg hq, if_pos hdoi, hp]
    · intro hnone
      simp only [LiteratureService.search]
      rw [if_neg hq, if_pos hdoi, hnone]
    · intro e he
      simp only [LiteratureService.search]
      rw [if_neg hq, if_pos hdoi, he]
  · intro hq hdoi h0 items hitems
    simp only [LiteratureService.search]
    rw [if_neg hq, if_neg (by simp [hdoi]), hitems]
    simp only [pySliceTo, if_pos h0]

/-- C6 witness: a non-identifier query on the one-record service. -/
theorem search_dispatch_witness :
    svcOne.search "query" 5 = .ok (([paperA] : List Paper).take (5 : Int).toNat) :=
  (search_dispatch svcOne "query" 5).2.2 (by decide) (by decide) (by decide)
    [paperA] (by decide)

/-- C8: the title traversal visits the provider list head first; a raising
adapter is recorded in the error list and traversal continues; a returned
candidate is accepted exactly when its `key()` is unseen, appended in
order, and acceptance reaching the limit stops everything — the outcome is
the same `ok` for every possible list of remaining providers. -/
theorem search_title_traversal (q : String) (rows : Int) :
    (∀ (p : Provider) ps out seen errs e,
      callSearchTitle p.client q rows = .error e →
      stGo q rows (p :: ps) out seen errs
        = stGo q rows ps out seen (errs ++ [p.name ++ ": " ++ e])) ∧
    (∀ (p : Provider) ps out seen errs items,
      callSearchTitle p.client q rows = .ok items →
      stGo q rows (p :: ps) out seen errs
        = (if (addItems rows items out seen).2.2 then
            .ok (addItems rows items out seen).1
          else stGo q rows ps (addItems rows items out seen).1
            (addItems rows items out seen).2.1 errs)) ∧
    (∀ (it : Paper) items out seen,
      addItems rows (some it :: items) out seen
        = (if it.key ∈ seen then addItems rows items out seen
           else if rows ≤ (((out ++ [it]).length : Nat) : Int) then
             (out ++ [it], seen ++ [it.key], true)
           else addItems rows items (out ++ [it]) (seen ++ [it.key]))) ∧
    (∀ (p : Provider) ps ps2 out seen errs items,
      callSearchTitle p.client q rows = .ok items →
      (addItems rows items out seen).2.2 = true →
      stGo q rows (p :: ps) out seen errs
          = .ok (addItems rows items out seen).1 ∧
      stGo q rows (p :: ps2) out seen errs
          = .ok (addItems rows items out seen).1) := by
  refine ⟨?_, ?_, ?_, ?_⟩
  · intro p ps out seen errs e hc
    simp [stGo, hc]
  · intro p ps out seen errs items hc
    simp [stGo, hc]
  · intro it items out seen
    exact addItems_cons_some rows it items out seen
  · intro p ps ps2 out seen errs items hc hdone
    constructor <;> simp [stGo, hc, hdone]

/-- C8 witness: one traversal step past a raising provider. -/
theorem search_title_traversal_witness :
    stGo "q" 5 [provErrT] [] [] []
      = stGo "q" 5 [] [] [] ([] ++ [provErrT.name ++ ": " ++ "down"]) :=
  (search_title_traversal "q" 5).1 provErrT [] [] [] [] "down" rfl

/-- C2: the first registered provider is `crossref`, whose client defines
no `search_title` or `lookup_doi` attribute, so every aggregator call
through it raises `AttributeError`; the orchestrator records the error and
continues with the remaining providers — consequently crossref never
contributes a record to either traversal (whatever the other nine clients
are). -/
theorem crossref_never_contributes
    (c1 c2 c3 c4 c5 c6 c7 c8 c9 : Client) (q doi2 : String) (rows : Int) :
    ((initService c1 c2 c3 c4 c5 c6 c7 c8 c9).providers.head?
        = some ⟨"crossref", true, true, crossrefClient⟩) ∧
    callSearchTitle crossrefClient q rows
        = .error "AttributeError: search_title" ∧
    callLookupDoi crossrefClient doi2
        = .error "AttributeError: lookup_doi" ∧
    (pyStrip q ≠ "" →
      (initService c1 c2 c3 c4 c5 c6 c7 c8 c9).search_title q rows
        = stGo (pyStrip q) rows
            ((initService c1 c2 c3 c4 c5 c6 c7 c8 c9).title_order.drop 1)
            [] [] ["crossref: AttributeError: search_title"]) ∧
    (rstripPunct (normalize_doi doi2) ≠ "" →
      (initService c1 c2 c3 c4 c5 c6 c7 c8 c9).lookup_doi doi2
        = ldGo (rstripPunct (normalize_doi doi2))
            ((initService c1 c2 c3 c4 c5 c6 c7 c8 c9).doi_order.drop 1)
            ["crossref: AttributeError: lookup_doi"]) := by
  refine ⟨rfl, rfl, rfl, ?_, ?_⟩
  · intro hq
    simp only [LiteratureService.search_title]
    rw [if_neg hq]
    rfl
  · intro hd
    simp only [LiteratureService.lookup_doi]
    rw [if_neg hd]
    rfl

/-- C2 witness: with all other clients stubbed out, the aggregator records
the crossref failure and moves on. -/
theorem crossref_never_contributes_witness :
    (initService crossrefClient crossrefClient crossrefClient crossrefClient
        crossrefClient crossrefClient crossrefClient crossrefClient
        crossrefClient).search_title "brain" 5
      = stGo "brain" 5
          ((initService crossrefClient crossrefClient crossrefClient
            crossrefClient crossrefClient crossrefClient crossrefClient
            crossrefClient crossrefClient).title_order.drop 1)
          [] [] ["crossref: AttributeError: search_title"] :=
  (crossref_never_contributes crossrefClient crossrefClient crossrefClient
    crossrefClient crossrefClient crossrefClient crossrefClient
    crossrefClient crossrefClient "brain" "10.1/x" 5).2.2.2.1 (by decide)

/-- C10: with the check-and-update serialized (the second caller's clock
read is no earlier than the first caller's recorded release), consecutive
releases of one limiter instance are at least the configured interval
apart; and a limiter configured with a zero or negative interval releases
immediately and never touches its state. -/
theorem rate_limiter_wait (I last now1 now2 : ℚ) :
    (0 < I →
      (RateLimiterState.wait ⟨I, last⟩ now1).2.last_ts ≤ now2 →
      (RateLimiterState.wait ⟨I, last⟩ now1).1 + I ≤
        (RateLimiterState.wait (RateLimiterState.wait ⟨I, last⟩ now1).2
          now2).1) ∧
    (I ≤ 0 → ∀ t : ℚ,
      RateLimiterState.wait ⟨(rateLimiterInit I).min_interval, t⟩ now1
        = (now1, ⟨(rateLimiterInit I).min_interval, t⟩)) := by
  constructor
  · intro hI h2
    rw [wait_pos I last now1 hI] at h2 ⊢
    rw [wait_pos I (max now1 (last + I)) now2 hI]
    exact le_max_right _ _
  · intro hI t
    have h0 : (rateLimiterInit I).min_interval = 0 := by
      simp [rateLimiterInit, max_eq_left hI]
    simp [RateLimiterState.wait, h0]

/-- C10 witness at concrete times. -/
theorem rate_limiter_wait_witness :
    (RateLimiterState.wait ⟨1, 0⟩ 0).1 + 1 ≤
      (RateLimiterState.wait (RateLimiterState.wait ⟨1, 0⟩ 0).2 1).1 :=
  (rate_limiter_wait 1 0 0 1).1 (by norm_num)
    (by norm_num [RateLimiterState.wait])

end PsyBot
